import Mathlib

/-!
Verification development for the GoferShell repository (Go).

The repository is a collection of small download tools. The parts relevant
to the claims are:
  * dlfast.go        — parallel downloader wrapping aria2c (URL validation,
                       filename inference/sanitization, destination handling,
                       semaphore-bounded workers, error aggregation, exit codes);
  * yt_batch.go      — parallel wrapper around ytmax (parallelism flag check,
                       semaphore, failed-URL channel);
  * unnamed/part_000 — sequential dlfast batch driver (skip-on-cancel, 0/1/130);
  * unnamed/part_001 — sequential dlfast batch driver with a 3-hour per-task
                       timeout context;
  * unnamed/part_003 — legacy single-shot dlfast (destination-hint handling).

Each definition below is a shallow embedding of the corresponding Go function;
IO effects (printing, filesystem creation, process spawning) are replaced by
explicit parameters (current working directory, a directory-existence oracle,
per-task outcome oracles) and by returning the decision the Go code makes.
-/

namespace GoferShell

/-! ## Character-list string helpers

Kernel-computable stand-ins for the Go string operations the tools use
(`strings.Split`, `strings.Join`, `strings.ToUpper`, `strings.ToLower`,
`strings.HasPrefix`, `strings.HasSuffix`). -/

/-- Split a character list on a separator character; mirrors Go
`strings.Split` (always returns at least one, possibly empty, group). -/
def splitOnChar (sep : Char) : List Char → List (List Char)
  | [] => [[]]
  | c :: rest =>
    let r := splitOnChar sep rest
    if c = sep then [] :: r
    else
      match r with
      | [] => [[c]]
      | g :: gs => (c :: g) :: gs

/-- Join strings with "/" between them; mirrors Go `strings.Join(l, "/")`. -/
def joinSlash : List String → String
  | [] => ""
  | [s] => s
  | s :: rest => s ++ "/" ++ joinSlash rest

/-- ASCII upper-casing of one character, as Go `strings.ToUpper` does for the
ASCII range the tools compare against. -/
def charToUpper (c : Char) : Char :=
  if 'a' ≤ c ∧ c ≤ 'z' then Char.ofNat (c.toNat - 32) else c

/-- ASCII lower-casing of one character, as Go `net/url` applies to schemes. -/
def charToLower (c : Char) : Char :=
  if 'A' ≤ c ∧ c ≤ 'Z' then Char.ofNat (c.toNat + 32) else c

/-- ASCII upper-casing of a string. -/
def strToUpper (s : String) : String := String.mk (s.toList.map charToUpper)

/-- ASCII lower-casing of a string. -/
def strToLower (s : String) : String := String.mk (s.toList.map charToLower)

/-- Whether `pat` occurs as a contiguous substring of `s`; used to check what a
recorded diagnostic message does and does not say. -/
def strContains (s pat : String) : Bool :=
  go pat.toList s.toList
where
  go (pat : List Char) : List Char → Bool
    | [] => pat.isEmpty
    | c :: rest => pat.isPrefixOf (c :: rest) || go pat rest

/-- `Except` success test (Go: the call returned a nil error). -/
def exceptIsOk {ε α : Type} : Except ε α → Bool
  | .ok _ => true
  | .error _ => false

/-! ## Models of the Go standard library helpers used by the tools
(`path/filepath.Base`, `path/filepath.Clean`, `path/filepath.Dir`,
`path/filepath.Abs`, `net/url.Parse`). These follow the Go sources for
slash-separated (Unix) paths without volume names, and `net/url.Parse` is
modelled for the common `scheme://host/path` regime the tools operate in. -/

/-- Model of Go `filepath.Base` (Unix): empty path gives ".", trailing slashes
are stripped, an all-slash path gives "/", otherwise the suffix after the last
slash. -/
def goFilepathBase (path : String) : String :=
  if path = "" then "."
  else
    let cs := path.toList
    let stripped := (cs.reverse.dropWhile (fun c => c = '/')).reverse
    if stripped = [] then "/"
    else String.mk ((stripped.reverse.takeWhile (fun c => c != '/')).reverse)

/-- Model of Go `filepath.Clean` (Unix, no volume names): collapses repeated
slashes, eliminates "." components, resolves ".." components against earlier
components (dropping them at the root), returning "." for an empty result. -/
def goClean (path : String) : String :=
  if path = "" then "."
  else
    let cs := path.toList
    let rooted := cs.head? = some '/'
    let comps := (splitOnChar '/' cs).map String.mk
    let out := comps.foldl (fun acc c =>
      if c = "" ∨ c = "." then acc
      else if c = ".." then
        match acc with
        | [] => if rooted then [] else [".."]
        | a :: rest => if a = ".." then c :: a :: rest else rest
      else c :: acc) ([] : List String)
    let s := joinSlash out.reverse
    if rooted then (if s = "" then "/" else "/" ++ s)
    else (if s = "" then "." else s)

/-- Model of Go `filepath.Dir` (Unix): `Clean` of the prefix up to and
including the last slash; "." when the path has no slash. -/
def goDir (path : String) : String :=
  let cs := path.toList
  goClean (String.mk ((cs.reverse.dropWhile (fun c => c != '/')).reverse))

/-- Model of Go `filepath.Abs`: an already-rooted path is cleaned, otherwise
the path is joined onto the working directory and cleaned (`filepath.Join`). -/
def goAbs (cwd path : String) : String :=
  if path.toList.head? = some '/' then goClean path
  else goClean (cwd ++ "/" ++ path)

/-- The components of a parsed URL that the tools inspect
(`u.Scheme`, `u.Host`, `u.Path` of `net/url.URL`). -/
structure GoURL where
  scheme : String
  host : String
  path : String
deriving Repr, DecidableEq

/-- Split a character list at the first occurrence of "://", giving the part
before (the scheme) and the part after. -/
def findSchemeSplit : List Char → Option (List Char × List Char)
  | [] => none
  | ':' :: '/' :: '/' :: after => some ([], after)
  | c :: rest =>
    match findSchemeSplit rest with
    | none => none
    | some (sch, after) => some (c :: sch, after)

/-- Model of Go `net/url.Parse` for the regime the tools use: parsing fails on
whitespace/control characters; a string with no "://" yields an empty scheme
and host with the whole string as path (as Go does for relative references);
otherwise the scheme (lowercased, as Go does) precedes "://", the host runs to
the first '/', '?' or '#', and the path runs from there to the first '?' or
'#'. -/
def parseURL (raw : String) : Option GoURL :=
  if raw.toList.any (fun c => c = ' ' ∨ c.toNat < 32) then none
  else
    match findSchemeSplit raw.toList with
    | none => some ⟨"", "", raw⟩
    | some (sch, after) =>
      let hostCs := after.takeWhile (fun c => c != '/' && c != '?' && c != '#')
      let restCs := after.dropWhile (fun c => c != '/' && c != '?' && c != '#')
      let pathCs := restCs.takeWhile (fun c => c != '?' && c != '#')
      some ⟨strToLower (String.mk sch), String.mk hostCs, String.mk pathCs⟩

/-! ## dlfast.go — filename sanitization and URL-derived inference
(`sanitizeFilename`, `isReservedName`, `inferFilenameFromURL`).

The Go code stamps fallback names with `time.Now()` formatted as a string; the
clock reading is made an explicit `now : String` parameter here (the Go code
uses slightly different format layouts per branch, which is immaterial to the
claims: every fallback embeds the current clock reading). -/

/-- The characters the pre-compiled regex `[<>:"/\\|?*]` in dlfast.go
replaces. -/
def isDangerousChar (c : Char) : Bool :=
  ['<', '>', ':', '"', '/', '\\', '|', '?', '*'].contains c

/-- The deterministic part of dlfast.go `sanitizeFilename`: replace each
dangerous character with '_' and trim leading/trailing spaces and dots
(`strings.Trim(filename, " .")`). -/
def sanitizeCore (filename : String) : String :=
  let cs := filename.toList.map (fun c => if isDangerousChar c then '_' else c)
  let cs := cs.dropWhile (fun c => c = ' ' ∨ c = '.')
  let cs := (cs.reverse.dropWhile (fun c => c = ' ' ∨ c = '.')).reverse
  String.mk cs

/-- The Windows reserved device names checked by dlfast.go `isReservedName`. -/
def reservedNames : List String :=
  ["CON", "PRN", "AUX", "NUL", "COM1", "COM2", "COM3", "COM4",
   "COM5", "COM6", "COM7", "COM8", "COM9", "LPT1", "LPT2", "LPT3", "LPT4",
   "LPT5", "LPT6", "LPT7", "LPT8", "LPT9"]

/-- Model of dlfast.go `isReservedName`: case-insensitive comparison against
the reserved list. -/
def isReservedName (name : String) : Bool :=
  reservedNames.any (fun r => strToUpper name = r)

/-- Model of dlfast.go `sanitizeFilename`: the sanitized core, or a
timestamp-stamped synthetic name when the core is empty or reserved. -/
def sanitizeFilename (filename now : String) : String :=
  let f := sanitizeCore filename
  if f = "" ∨ isReservedName f = true then "download_" ++ now else f

/-- dlfast.go `inferFilenameFromURL` strips one trailing slash from the URL
path when the path is longer than "/". -/
def strippedPath (p : String) : String :=
  if p.toList.getLast? = some '/' ∧ p.length > 1 then String.mk p.toList.dropLast
  else p

/-- Model of dlfast.go `inferFilenameFromURL`: on parse failure a timestamped
error name; otherwise `filepath.Base` of the (slash-stripped) URL path,
sanitized, falling back to a host-derived or fully synthetic timestamped name
when the basename is empty, "." or "/". -/
def inferFilenameFromURL (rawURL now : String) : String :=
  match parseURL rawURL with
  | none => "download_error_" ++ now
  | some u =>
    let filename := goFilepathBase (strippedPath u.path)
    if filename = "" ∨ filename = "." ∨ filename = "/" then
      if u.host ≠ "" then
        "download_from_" ++ sanitizeFilename u.host now ++ "_" ++ now
      else "downloaded_file_" ++ now
    else sanitizeFilename filename now

/-! ## dlfast.go — configuration, URL validation, destination handling,
aria2c argument construction. -/

/-- Model of the dlfast.go `Config` struct (same fields, same order). -/
structure Config where
  Destination : String
  MaxSpeed : String
  Timeout : Int
  ConnectTimeout : Int
  MaxTries : Int
  RetryWait : Int
  UserAgent : String
  ParallelDownloads : Int
  Quiet : Bool

/-- Model of dlfast.go `validateURL`: returns the error message the Go code
produces, or `none` when the URL passes (non-empty, parseable, scheme in
http/https/ftp, non-empty host). Parse failure is reported abstractly as
"invalid URL format" (Go appends the parser's own message). -/
def validateURL (rawURL : String) : Option String :=
  if rawURL = "" then some "URL cannot be empty"
  else
    match parseURL rawURL with
    | none => some "invalid URL format"
    | some u =>
      if u.scheme ≠ "http" ∧ u.scheme ≠ "https" ∧ u.scheme ≠ "ftp" then
        some ("unsupported URL scheme: " ++ u.scheme ++ " (supported: http, https, ftp)")
      else if u.host = "" then some "URL must contain a host"
      else none

/-- The `for _, url := range urls` validation loop at the top of dlfast.go
`runDownloads`: the first failing URL together with its message, or `none`
when every URL validates. -/
def validateAllURLs : List String → Option (String × String)
  | [] => none
  | u :: rest =>
    match validateURL u with
    | some e => some (u, e)
    | none => validateAllURLs rest

/-- Model of dlfast.go `setupDestination`'s decision: empty destination means
the working directory; otherwise the absolute destination is accepted only
when it exists as a directory (`os.Stat`, abstracted by the `exDir` oracle) or
the hint ends in a path separator, and is rejected with the Go error message
otherwise. (The `MkdirAll` and writability-probe side effects, which can only
add further error cases, are outside the decision modelled here.) -/
def setupDestinationDecision (cwd destination : String) (exDir : String → Bool) :
    Except String String :=
  if destination = "" then .ok cwd
  else
    let absDest := goAbs cwd destination
    if exDir absDest || destination.toList.getLast? = some '/' then .ok absDest
    else .error ("destination must be a directory, got: " ++ destination)

/-- Model of dlfast.go `buildAria2cArgs` (the argument list handed to the
retrieval command). -/
def buildAria2cArgs (targetDir filename url : String) (config : Config) : List String :=
  let args := ["--dir=" ++ targetDir, "--out=" ++ filename, "--continue=true",
    "--max-connection-per-server=16", "--split=32", "--min-split-size=1M",
    "--file-allocation=falloc", "--max-tries=" ++ toString config.MaxTries,
    "--retry-wait=" ++ toString config.RetryWait,
    "--connect-timeout=" ++ toString config.ConnectTimeout,
    "--timeout=" ++ toString config.Timeout, "--max-file-not-found=3",
    "--summary-interval=1", "--console-log-level=warn",
    "--auto-file-renaming=false", "--allow-overwrite=true",
    "--conditional-get=true", "--check-integrity=true", "--disk-cache=128M",
    "--async-dns=true", "--http-accept-gzip=true", "--remote-time=true"]
  let args := if config.MaxSpeed ≠ "" then args ++ ["--max-download-limit=" ++ config.MaxSpeed] else args
  let args := if config.UserAgent ≠ "" then args ++ ["--user-agent=" ++ config.UserAgent] else args
  args ++ [url]

/-- The pre-launch phase of dlfast.go `runDownloads`: destination setup, then
validation of every URL (in order), and only then the worker launches. `.ok
urls` stands for "one worker goroutine is spawned per URL, in input order";
`.error` means `runDownloads` returned before launching anything. Note that no
check of `config.ParallelDownloads` appears here, because none appears in the
Go function. -/
def runDownloadsModel (config : Config) (cwd : String) (exDir : String → Bool)
    (urls : List String) : Except String (List String) :=
  match setupDestinationDecision cwd config.Destination exDir with
  | .error e => .error e
  | .ok _ =>
    match validateAllURLs urls with
    | some (u, e) => .error ("invalid URL '" ++ u ++ "': " ++ e)
    | none => .ok urls

/-! ## Go errors and dlfast.go outcome classification. -/

/-- Model of the Go error values flowing through the tools:
`context.Canceled`, `context.DeadlineExceeded`, an `errors.New`/`fmt.Errorf`
leaf (no `%w`), and `fmt.Errorf` with a `%w` wrap. -/
inductive GoErr
  | canceled
  | deadlineExceeded
  | msg (s : String)
  | wrap (s : String) (inner : GoErr)
deriving Repr, DecidableEq

/-- Model of Go `errors.Is` against a sentinel target: unwraps `%w` wrapping
and otherwise compares values. A plain `fmt.Errorf` message never matches a
sentinel. -/
def errorsIs : GoErr → GoErr → Bool
  | .wrap _ inner, target => errorsIs inner target
  | .canceled, .canceled => true
  | .deadlineExceeded, .deadlineExceeded => true
  | .msg s, .msg t => s = t
  | _, _ => false

/-- The string Go prints for an error value (`%v`). -/
def goErrText : GoErr → String
  | .canceled => "context canceled"
  | .deadlineExceeded => "context deadline exceeded"
  | .msg s => s
  | .wrap s inner => s ++ ": " ++ goErrText inner

/-- What `cmd.Run()` reported for one aria2c invocation: a nil error, an
`*exec.ExitError` with the tool's exit code, or a failure to run the process
at all. -/
inductive RunResult
  | success
  | exited (code : Nat)
  | startError (m : String)
deriving Repr, DecidableEq

/-- Model of the error-classification tail of dlfast.go `downloadFile`: a nil
run error is success; if the context was cancelled the function returns
`ctx.Err()` (= `context.Canceled`); exit codes 3, 9 and 28 map to the named
aria2c failure messages; any other exit code maps to the generic message
naming the code; inability to start the process maps to the distinct
execution-failure message. -/
def classifyRun (ctxCanceled : Bool) (res : RunResult) : Option GoErr :=
  match res with
  | .success => none
  | .exited code =>
    if ctxCanceled then some GoErr.canceled
    else if code = 3 then some (GoErr.msg "file not found or access denied")
    else if code = 9 then some (GoErr.msg "not enough disk space available")
    else if code = 28 then some (GoErr.msg "network timeout or connection refused")
    else some (GoErr.msg ("aria2c failed with exit code " ++ toString code))
  | .startError m =>
    if ctxCanceled then some GoErr.canceled
    else some (GoErr.msg ("aria2c execution failed: " ++ m))

/-! ## dlfast.go — error aggregation over `errChan` and the process exit code.

A completion event is the pair (task index, result of `downloadFile`), listed
in the order the worker goroutines finished. Each worker sends
`fmt.Errorf("download %d failed: %w", index+1, err)` on `errChan` unless the
error is the cancellation sentinel; after `wg.Wait()` the main goroutine
drains the channel in send (= completion) order. -/

/-- What one completion event contributes to `errChan`. -/
def reportEntry : Nat × Option GoErr → Option String
  | (_, none) => none
  | (i, some e) =>
    if errorsIs e GoErr.canceled then none
    else some ("download " ++ toString (i + 1) ++ " failed: " ++ goErrText e)

/-- The worker sends in completion order, appended to the channel buffer. -/
def sendFailures : List (Nat × Option GoErr) → List String → List String
  | [], chan => chan
  | (i, me) :: rest, chan =>
    match reportEntry (i, me) with
    | none => sendFailures rest chan
    | some m => sendFailures rest (chan ++ [m])

/-- The `downloadErrors` list dlfast.go's main goroutine aggregates: the
drained channel contents. -/
def dlfastReport (completions : List (Nat × Option GoErr)) : List String :=
  sendFailures completions []

/-- The error dlfast.go `runDownloads` returns after the workers join: a fresh
unwrapped message when the context was cancelled, a fresh unwrapped message
when any download error was collected, nil otherwise. Neither `fmt.Errorf`
call uses `%w`. -/
def runDownloadsFinalErr (ctxCanceledAtEnd : Bool) (downloadErrors : List String) :
    Option GoErr :=
  if ctxCanceledAtEnd then some (GoErr.msg "downloads cancelled by user")
  else if downloadErrors.isEmpty then none
  else some (GoErr.msg "some downloads failed")

/-- The exit code chosen by dlfast.go `main` from the `runDownloads` error:
`os.Exit(130)` when `errors.Is(err, context.Canceled)`, `os.Exit(1)` on any
other error, normal exit 0 otherwise. -/
def dlfastExitCode (ctxCanceledAtEnd : Bool) (downloadErrors : List String) : Nat :=
  match runDownloadsFinalErr ctxCanceledAtEnd downloadErrors with
  | none => 0
  | some e => if errorsIs e GoErr.canceled then 130 else 1

/-! ## The semaphore discipline of the concurrent workers.

Both dlfast.go `runDownloads` and yt_batch.go use a buffered channel
`sem := make(chan struct{}, P)` as a counting semaphore: a worker sends on
`sem` before running its retrieval command and receives (releases) after the
command finishes, so a send can only proceed while fewer than `P` workers hold
a slot. The admission discipline is modelled as a transition system over the
per-task phases; a task is `running` exactly while its worker holds a slot
(which covers the whole retrieval-command execution). -/

/-- Phase of one task's worker: not yet admitted, holding a semaphore slot
(retrieval command in flight), or finished (slot released). -/
inductive Phase
  | pending
  | running
  | done
deriving Repr, DecidableEq

/-- Number of workers currently holding a semaphore slot. -/
def countRunning : List Phase → Nat
  | [] => 0
  | Phase.running :: rest => countRunning rest + 1
  | _ :: rest => countRunning rest

/-- One scheduler step: a pending worker's `sem <- struct{}{}` completes (only
possible while the buffered channel has a free slot, i.e. fewer than `cap`
slots are held), or a running worker finishes and releases its slot. -/
inductive SemStep (cap : Nat) : List Phase → List Phase → Prop
  | start (l r : List Phase)
      (h : countRunning (l ++ Phase.pending :: r) < cap) :
      SemStep cap (l ++ Phase.pending :: r) (l ++ Phase.running :: r)
  | finish (l r : List Phase) :
      SemStep cap (l ++ Phase.running :: r) (l ++ Phase.done :: r)

/-- States reachable by the batch orchestration from the initial all-pending
state for `n` tasks under parallelism `cap`. -/
inductive SemReach (cap n : Nat) : List Phase → Prop
  | init : SemReach cap n (List.replicate n Phase.pending)
  | step {s t : List Phase} : SemReach cap n s → SemStep cap s t → SemReach cap n t

/-! ## yt_batch.go — flag validation before any task starts. -/

/-- The pre-launch phase of yt_batch.go `main`, in source order: `flag.Parse`
is followed first by the `parallel < 1` check (`fatalf`, exit 1), then the
`ytmax` lookup (`fatalf`, exit 1), and only then the URL prompt and the worker
launches. `.ok urls` stands for "one worker per URL is launched". -/
def ytBatchMain (parallel : Int) (ytmaxFound : Bool) (urls : List String) :
    Except (String × Nat) (List String) :=
  if parallel < 1 then
    .error ("number of parallel downloads (-p) must be at least 1", 1)
  else if ytmaxFound = false then
    .error ("ytmax executable not found in PATH", 1)
  else .ok urls

/-! ## unnamed/part_000 and unnamed/part_001 — sequential dlfast batch drivers.

Both iterate over the URLs in input order; at the top of each iteration they
check `mainCtx.Err() != nil` and, if cancellation has been observed, record
every remaining URL as skipped in one pass and break. Cancellation is modelled
by `cancelFrom : Option Nat`: `some k` means the cancellation became
observable before iteration `k` (and stays observable), `none` means it never
triggered. Per-task results come from an outcome oracle. -/

/-- Whether cancellation is observable at iteration `i`. -/
def cancelTriggered : Option Nat → Nat → Bool
  | none, _ => false
  | some k, i => decide (k ≤ i)

/-- Result of one `dlfast` child process in part_000 (no per-task timeout
exists there): clean exit, termination by a signal, a non-zero exit code, or
failure to run the process. -/
inductive Outcome000
  | ok
  | signaled (sig : String)
  | exited (code : Nat)
  | startFail (m : String)
deriving Repr, DecidableEq

/-- Model of part_000's per-URL error recording: the failure string appended
to the `failure` list (`none` = the URL is appended to `success`). The
`exit 130 while cancelled` case gets its dedicated message. -/
def part000Entry (url : String) (ctxCanceledNow : Bool) : Outcome000 → Option String
  | .ok => none
  | .signaled sig => some (url ++ " (dlfast process terminated by signal: " ++ sig ++ ")")
  | .exited code =>
    if code = 130 ∧ ctxCanceledNow then
      some (url ++ " (download interrupted, dlfast exited 130)")
    else some (url ++ " (dlfast process exited with code: " ++ toString code ++ ")")
  | .startFail m => some (url ++ " (error running dlfast process: " ++ m ++ ")")

/-- Model of part_000's main loop: returns the (success, failure) lists. -/
def part000Loop (outs : Nat → Outcome000) (cancelFrom : Option Nat) :
    List String → Nat → List String × List String
  | [], _ => ([], [])
  | url :: rest, i =>
    if cancelTriggered cancelFrom i then
      ([], (url :: rest).map (fun u => u ++ " (skipped due to interruption)"))
    else
      match part000Entry url (cancelTriggered cancelFrom (i + 1)) (outs i) with
      | none =>
        let p := part000Loop outs cancelFrom rest (i + 1)
        (url :: p.1, p.2)
      | some m =>
        let p := part000Loop outs cancelFrom rest (i + 1)
        (p.1, m :: p.2)

/-- Model of part_000's `main` after flag handling: the summary lists and the
process exit code (130 when cancellation was triggered, else 1 when any
failure was recorded, else 0). -/
def part000Run (urls : List String) (cancelFrom : Option Nat)
    (outs : Nat → Outcome000) : (List String × List String) × Nat :=
  let r := part000Loop outs cancelFrom urls 0
  (r, if cancelFrom.isSome then 130 else if r.2.isEmpty then 0 else 1)

/-- Model of the per-task execution contexts, mirroring how the Go code builds
them from `context.Background()`. -/
inductive Ctx
  | background
  | withCancel (parent : Ctx)
  | withTimeout (parent : Ctx) (seconds : Nat)

/-- Whether a deadline (timeout countdown) is attached anywhere on the context
chain the retrieval command runs under. -/
def hasDeadline : Ctx → Bool
  | .background => false
  | .withCancel parent => hasDeadline parent
  | .withTimeout _ _ => true

/-- The context dlfast.go runs each aria2c command under:
`ctx, cancel := context.WithCancel(context.Background())` in `main`, passed
unchanged to `exec.CommandContext` in `downloadFile`. -/
def dlfastDownloadCtx : Ctx := .withCancel .background

/-- The context part_001 runs each dlfast child under:
`dlCtx, _ := context.WithTimeout(mainCtx, individualDownloadTimeout)` with
`individualDownloadTimeout = 3 * time.Hour`. -/
def part001TaskCtx : Ctx := .withTimeout (.withCancel .background) 10800

/-- Result of one `dlfast` child process in part_001, including the two
context-derived cases its classification distinguishes first: the 3-hour
deadline elapsed, or the batch context was cancelled mid-run. -/
inductive Outcome001
  | ok
  | timedOut
  | cancelledMid
  | signaled (sig : String)
  | exited (code : Nat)
  | startFail (m : String)
deriving Repr, DecidableEq

/-- Model of part_001's per-URL error recording, in the code's test order:
`dlCtx.Err()` deadline-exceeded first, then cancellation, then exit-status
cases, then a generic run error. -/
def part001Entry (url : String) : Outcome001 → Option String
  | .ok => none
  | .timedOut => some (url ++ " (failed: download timed out after 3h0m0s)")
  | .cancelledMid => some (url ++ " (failed: download cancelled as part of batch interruption)")
  | .signaled sig => some (url ++ " (failed: dlfast process terminated by signal " ++ sig ++ ")")
  | .exited code => some (url ++ " (failed: dlfast exited with code " ++ toString code ++ ")")
  | .startFail m => some (url ++ " (failed: error running dlfast: " ++ m ++ ")")

/-- Model of part_001's main loop: returns the (success, failure) lists. -/
def part001Loop (outs : Nat → Outcome001) (cancelFrom : Option Nat) :
    List String → Nat → List String × List String
  | [], _ => ([], [])
  | url :: rest, i =>
    if cancelTriggered cancelFrom i then
      ([], (url :: rest).map (fun u => u ++ " (skipped due to batch interruption)"))
    else
      match part001Entry url (outs i) with
      | none =>
        let p := part001Loop outs cancelFrom rest (i + 1)
        (url :: p.1, p.2)
      | some m =>
        let p := part001Loop outs cancelFrom rest (i + 1)
        (p.1, m :: p.2)

/-! ## Legacy single-shot dlfast (unnamed/part_003) — destination handling. -/

/-- Model of part_003's destination-hint handling: empty hint means the
working directory with the filename inferred later by aria2c; a hint ending in
"/" or naming an existing directory is the target directory; otherwise the
hint is treated as a file path, with `filepath.Dir` as the directory and
`filepath.Base` as the explicit output filename (`--out`). -/
def part003Dest (cwd destination : String) (exDir : String → Bool) :
    String × Option String :=
  if destination = "" then (cwd, none)
  else
    let absDest := goAbs cwd destination
    if destination.toList.getLast? = some '/' then (absDest, none)
    else if exDir absDest then (absDest, none)
    else (goDir absDest, some (goFilepathBase absDest))

/-! ## Helper lemmas. -/

theorem countRunning_append (l r : List Phase) :
    countRunning (l ++ r) = countRunning l + countRunning r := by
  induction l with
  | nil => simp [countRunning]
  | cons p rest ih => cases p <;> simp [countRunning, ih, Nat.add_right_comm]

theorem countRunning_replicate_pending (n : Nat) :
    countRunning (List.replicate n Phase.pending) = 0 := by
  induction n with
  | zero => rfl
  | succ k ih => simpa [List.replicate_succ, countRunning] using ih

theorem sendFailures_eq_filterMap (completions : List (Nat × Option GoErr))
    (chan : List String) :
    sendFailures completions chan = chan ++ completions.filterMap reportEntry := by
  induction completions generalizing chan with
  | nil => simp [sendFailures]
  | cons c rest ih =>
    obtain ⟨i, me⟩ := c
    cases h : reportEntry (i, me) with
    | none => simp [sendFailures, h, ih]
    | some m => simp [sendFailures, h, ih]

theorem validateAllURLs_none (urls : List String)
    (h : ∀ u ∈ urls, validateURL u = none) : validateAllURLs urls = none := by
  induction urls with
  | nil => rfl
  | cons v rest ih =>
    have hv := h v (by simp)
    have hr := ih (fun w hw => h w (by simp [hw]))
    simp [validateAllURLs, hv, hr]

theorem validateAllURLs_some {urls : List String} {u e : String}
    (h : validateAllURLs urls = some (u, e)) :
    u ∈ urls ∧ validateURL u = some e := by
  induction urls with
  | nil => simp [validateAllURLs] at h
  | cons v rest ih =>
    cases hval : validateURL v with
    | some m =>
      simp [validateAllURLs, hval] at h
      exact ⟨by simp [h.1], by rw [← h.1, hval, h.2]⟩
    | none =>
      simp [validateAllURLs, hval] at h
      obtain ⟨hmem, hu⟩ := ih h
      exact ⟨by simp [hmem], hu⟩

theorem validateAllURLs_isSome {urls : List String} {u : String}
    (hu : u ∈ urls) (hbad : validateURL u ≠ none) :
    ∃ v e, validateAllURLs urls = some (v, e) := by
  induction urls with
  | nil => cases hu
  | cons v rest ih =>
    cases hval : validateURL v with
    | some m => exact ⟨v, m, by simp [validateAllURLs, hval]⟩
    | none =>
      rcases List.mem_cons.mp hu with h | h
      · exact absurd (h ▸ hval) hbad
      · obtain ⟨w, e, hw⟩ := ih h
        exact ⟨w, e, by simp [validateAllURLs, hval, hw]⟩

theorem sanitizeFilename_clock_independent (f t1 t2 : String)
    (h1 : sanitizeCore f ≠ "") (h2 : isReservedName (sanitizeCore f) = false) :
    sanitizeFilename f t1 = sanitizeFilename f t2 := by
  simp [sanitizeFilename, h1, h2]

/-! ## The claims. -/

/-- C1: for every configured parallelism P ≥ 1 and every batch of N tasks, in
every state the orchestration can reach, the number of tasks whose worker
holds an admission slot — which covers the whole in-flight retrieval-command
execution — never exceeds P: a worker acquires a slot (`sem <- struct{}{}`)
before starting its retrieval command, the acquisition only succeeds while
fewer than P slots are held, and the slot is released only after the command
finishes. -/
theorem claim_C1_running_never_exceeds_parallelism (cap n : Nat) (s : List Phase)
    (_hcap : 1 ≤ cap) (hreach : SemReach cap n s) : countRunning s ≤ cap := by
  induction hreach with
  | init => simp [countRunning_replicate_pending]
  | step hprev hstep ih =>
    cases hstep with
    | start l r hlt =>
      rw [countRunning_append] at hlt ⊢
      simp only [countRunning] at hlt ⊢
      omega
    | finish l r =>
      rw [countRunning_append] at ih ⊢
      simp only [countRunning] at ih ⊢
      omega

theorem claim_C1_witness : 1 ≤ 1 ∧ countRunning [Phase.running] ≤ 1 :=
  ⟨Nat.le_refl 1,
    claim_C1_running_never_exceeds_parallelism 1 1 [Phase.running] (Nat.le_refl 1)
      (SemReach.step SemReach.init
        (show SemStep 1 (List.replicate 1 Phase.pending) [Phase.running] from
          SemStep.start [] [] (by decide)))⟩

/-- C2 counterexample: the same per-task results delivered in two different
completion orders produce two differently ordered reports, so the aggregated
report does not present results in input order regardless of completion
order: `downloadErrors` is the drained `errChan`, and failures are sent on
`errChan` in the order the workers finish. -/
theorem claim_C2_counterexample :
    dlfastReport [(1, some (GoErr.msg "x")), (0, some (GoErr.msg "y"))] =
      ["download 2 failed: x", "download 1 failed: y"] ∧
    dlfastReport [(0, some (GoErr.msg "y")), (1, some (GoErr.msg "x"))] =
      ["download 1 failed: y", "download 2 failed: x"] ∧
    dlfastReport [(1, some (GoErr.msg "x")), (0, some (GoErr.msg "y"))] ≠
      dlfastReport [(0, some (GoErr.msg "y")), (1, some (GoErr.msg "x"))] :=
  ⟨rfl, rfl, by decide⟩

/-- C2 (amended): the aggregated report lists the failed tasks in completion
order — exactly the non-cancelled failures, each formatted with its 1-based
input index, in the order the workers finished — not re-sorted into input
order. -/
theorem claim_C2_report_in_completion_order (completions : List (Nat × Option GoErr)) :
    dlfastReport completions = completions.filterMap reportEntry := by
  simpa using sendFailures_eq_filterMap completions []

/-- C3: on an interrupted batch, dlfast.go exits 1 instead of the distinct
interrupted code 130 that both the claim and dlfast's own
`errors.Is(err, context.Canceled) → os.Exit(130)` branch call for:
`runDownloads` reports cancellation with a fresh
`fmt.Errorf("downloads cancelled by user")` that does not wrap
`context.Canceled`, so `errors.Is` is false and the 130 branch is
unreachable. -/
theorem claim_C3_interrupted_run_exits_one :
    dlfastExitCode true [] = 1 ∧ dlfastExitCode true [] ≠ 130 :=
  ⟨rfl, by decide⟩

/-- C4 counterexample: dlfast.go attaches no per-task timeout countdown at
all — `downloadFile` runs aria2c under the plain cancellation context created
in `main` (`context.WithCancel(context.Background())`), which carries no
deadline, so no task execution there is time-bounded by the orchestrator. -/
theorem claim_C4_counterexample : hasDeadline dlfastDownloadCtx = false := rfl

/-- C4 (amended): in the dlfast_batch driver (part_001) each task runs under a
context with a 3-hour deadline; when the deadline is exceeded the task is
recorded as timed out with the dedicated diagnostic, and the remaining batch
is processed exactly as it would have been (the timeout affects only that
task's entry). dlfast.go itself only forwards `--timeout` to aria2c and
enforces no deadline. -/
theorem claim_C4_batch_timeout_isolated (u : String) (rest : List String)
    (outs : Nat → Outcome001) (h : outs 0 = Outcome001.timedOut) :
    hasDeadline part001TaskCtx = true ∧
    part001Loop outs none (u :: rest) 0 =
      ((part001Loop outs none rest 1).1,
        (u ++ " (failed: download timed out after 3h0m0s)") ::
          (part001Loop outs none rest 1).2) := by
  refine ⟨rfl, ?_⟩
  simp [part001Loop, cancelTriggered, h, part001Entry]

theorem claim_C4_witness :
    part001Loop (fun _ => Outcome001.timedOut) none ["u1"] 0 =
      ([], ["u1 (failed: download timed out after 3h0m0s)"]) := by
  rw [(claim_C4_batch_timeout_isolated "u1" [] (fun _ => Outcome001.timedOut) rfl).2]
  rfl

/-- C5 counterexample: dlfast.go raises no configuration error for a
parallelism of 0 — its entire pre-launch phase (destination setup and URL
validation, the only checks `runDownloads` performs before spawning workers)
accepts a configuration with `ParallelDownloads = 0` unchanged, contradicting
"the program aborts ... when the configured parallelism is less than 1". (At
runtime such a batch deadlocks at slot acquisition: with capacity 0 no
`SemStep.start` guard is ever satisfiable.) -/
theorem claim_C5_counterexample :
    exceptIsOk (runDownloadsModel ⟨"", "", 60, 30, 5, 10, "", 0, false⟩ "/home"
      (fun _ => false) ["https://example.com/f.zip"]) = true := rfl

/-- C5 (amended): yt_batch.go rejects parallelism < 1 before any task starts
(`fatalf`, exit status 1, prior to prompting for URLs or launching anything);
dlfast.go performs no such validation. -/
theorem claim_C5_ytbatch_rejects_low_parallelism (parallel : Int) (found : Bool)
    (urls : List String) (h : parallel < 1) :
    ytBatchMain parallel found urls =
      .error ("number of parallel downloads (-p) must be at least 1", 1) := by
  unfold ytBatchMain
  rw [if_pos h]

theorem claim_C5_witness :
    ytBatchMain 0 true ["https://youtu.be/x"] =
      .error ("number of parallel downloads (-p) must be at least 1", 1) :=
  claim_C5_ytbatch_rejects_low_parallelism 0 true ["https://youtu.be/x"] (by decide)

/-- C6: dlfast.go `downloadFile` classifies a completed retrieval command
exactly as claimed: exit 0 (a nil run error) is success; exit 3 maps to the
not-found/access-denied message, exit 9 to the insufficient-disk-space
message, exit 28 to the network-timeout/connection-refused message; any other
non-zero exit code maps to the generic failure naming the code; and inability
to start the process maps to the distinct execution-failure message. -/
theorem claim_C6_exit_classification (n : Nat) (_h0 : n ≠ 0) (h3 : n ≠ 3)
    (h9 : n ≠ 9) (h28 : n ≠ 28) :
    classifyRun false RunResult.success = none ∧
    classifyRun false (RunResult.exited 3) =
      some (GoErr.msg "file not found or access denied") ∧
    classifyRun false (RunResult.exited 9) =
      some (GoErr.msg "not enough disk space available") ∧
    classifyRun false (RunResult.exited 28) =
      some (GoErr.msg "network timeout or connection refused") ∧
    classifyRun false (RunResult.exited n) =
      some (GoErr.msg ("aria2c failed with exit code " ++ toString n)) ∧
    (∀ m, classifyRun false (RunResult.startError m) =
      some (GoErr.msg ("aria2c execution failed: " ++ m))) := by
  refine ⟨rfl, rfl, rfl, rfl, ?_, fun m => rfl⟩
  simp [classifyRun, h3, h9, h28]

theorem claim_C6_witness :
    classifyRun false (RunResult.exited 7) =
      some (GoErr.msg "aria2c failed with exit code 7") :=
  (claim_C6_exit_classification 7 (by decide) (by decide) (by decide)
    (by decide)).2.2.2.2.1

/-- C7 counterexample: with cancellation triggered before the first task's
turn, part_000 records the skipped task with the reason string
"(skipped due to interruption)" — not "batch cancelled", which appears
nowhere in the recorded entry — while exiting with the interrupted code
130. -/
theorem claim_C7_counterexample :
    (part000Run ["u1"] (some 0) (fun _ => Outcome000.ok)).1.2 =
      ["u1 (skipped due to interruption)"] ∧
    strContains "u1 (skipped due to interruption)" "batch cancelled" = false ∧
    (part000Run ["u1"] (some 0) (fun _ => Outcome000.ok)).2 = 130 :=
  ⟨rfl, by decide, rfl⟩

/-- C7 (amended): if cancellation has been triggered before a task's turn,
that task and all remaining pending tasks are recorded as skipped in one step
— none silently dropped, each with the reason string
"(skipped due to interruption)" appended to its URL — the success list is
empty, and the process exits with the interrupted code 130. -/
theorem claim_C7_cancel_before_start_skips_all (urls : List String)
    (outs : Nat → Outcome000) :
    part000Run urls (some 0) outs =
      (([], urls.map (fun u => u ++ " (skipped due to interruption)")), 130) := by
  cases urls with
  | nil => rfl
  | cons u rest => simp [part000Run, part000Loop, cancelTriggered]

/-- C8 counterexample: the current dlfast.go resolver rejects a non-empty
destination hint that neither names an existing directory nor ends with a
path separator — `setupDestination` returns the error "destination must be a
directory" instead of using the hint's parent as directory and its final
segment as filename. -/
theorem claim_C8_counterexample :
    setupDestinationDecision "/home" "downloads/archive.zip" (fun _ => false) =
      Except.error "destination must be a directory, got: downloads/archive.zip" ∧
    exceptIsOk (setupDestinationDecision "/home" "downloads/archive.zip"
      (fun _ => false)) = false :=
  ⟨rfl, rfl⟩

/-- C8 (amended): the claimed behaviour is the legacy single-shot dlfast's
(part_003): a non-empty hint that does not end with a separator and does not
name an existing directory is treated as a file path, with `filepath.Dir` of
the absolutized hint as the target directory and `filepath.Base` (its final
path segment) as the output filename. Current dlfast.go instead rejects such
a hint with an error. -/
theorem claim_C8_file_hint_parent_and_segment (cwd destination : String)
    (exDir : String → Bool) (h1 : destination ≠ "")
    (h2 : ¬ destination.toList.getLast? = some '/')
    (h3 : exDir (goAbs cwd destination) = false) :
    part003Dest cwd destination exDir =
      (goDir (goAbs cwd destination), some (goFilepathBase (goAbs cwd destination))) := by
  have h2' : ¬ destination.data.getLast? = some '/' := h2
  simp [part003Dest, h1, h2', h3]

theorem claim_C8_witness :
    part003Dest "/home" "/data/archive.zip" (fun _ => false) =
      ("/data", some "archive.zip") := by
  rw [claim_C8_file_hint_parent_and_segment "/home" "/data/archive.zip"
    (fun _ => false) (by decide) (by decide) rfl]
  decide

/-- C9 counterexample: resolving the same locator (with the same empty hint)
at two different clock readings yields two different filenames, because the
URL's path has no usable basename and the fallback name embeds
`time.Now()` — so resolution is not deterministic in its inputs alone. -/
theorem claim_C9_counterexample :
    inferFilenameFromURL "https://example.com/" "150405" =
      "download_from_example.com_150405" ∧
    inferFilenameFromURL "https://example.com/" "150406" =
      "download_from_example.com_150406" ∧
    inferFilenameFromURL "https://example.com/" "150405" ≠
      inferFilenameFromURL "https://example.com/" "150406" :=
  ⟨rfl, rfl, by decide⟩

/-- C9 (amended): filename resolution is deterministic in the locator
whenever the URL parses and URL-derived inference avoids every timestamp
fallback (the path's basename is none of "", ".", "/", and its sanitized form
is non-empty and not a reserved device name): the result is then independent
of the clock reading. In the fallback branches the name embeds the current
time, so resolutions at different instants differ. -/
theorem claim_C9_deterministic_without_fallback (rawURL t1 t2 : String) (u : GoURL)
    (hp : parseURL rawURL = some u)
    (hb1 : goFilepathBase (strippedPath u.path) ≠ "")
    (hb2 : goFilepathBase (strippedPath u.path) ≠ ".")
    (hb3 : goFilepathBase (strippedPath u.path) ≠ "/")
    (hs1 : sanitizeCore (goFilepathBase (strippedPath u.path)) ≠ "")
    (hs2 : isReservedName (sanitizeCore (goFilepathBase (strippedPath u.path))) = false) :
    inferFilenameFromURL rawURL t1 = inferFilenameFromURL rawURL t2 := by
  have hcond : ¬(goFilepathBase (strippedPath u.path) = "" ∨
      goFilepathBase (strippedPath u.path) = "." ∨
      goFilepathBase (strippedPath u.path) = "/") := by
    push_neg
    exact ⟨hb1, hb2, hb3⟩
  simp only [inferFilenameFromURL, hp]
  rw [if_neg hcond, if_neg hcond]
  exact sanitizeFilename_clock_independent _ t1 t2 hs1 hs2

theorem claim_C9_witness :
    inferFilenameFromURL "https://example.com/file.zip" "am" =
      inferFilenameFromURL "https://example.com/file.zip" "pm" :=
  claim_C9_deterministic_without_fallback "https://example.com/file.zip" "am" "pm"
    ⟨"https", "example.com", "/file.zip"⟩ (by decide) (by decide) (by decide)
    (by decide) (by decide) (by decide)

/-- C10: `runDownloads` validates every URL (non-empty, parseable, supported
scheme, non-empty host) before spawning any worker: when every URL validates,
one worker per URL is launched; when any URL fails validation, `runDownloads`
returns an error naming the (first) offending URL and its defect, and no
retrieval command is launched for any URL of the batch. (Stated under the
hypothesis that destination setup, which the Go code runs first, succeeded.) -/
theorem claim_C10_validation_gates_launch (config : Config) (cwd : String)
    (exDir : String → Bool) (urls : List String) (td : String)
    (hdest : setupDestinationDecision cwd config.Destination exDir = .ok td) :
    ((∀ u ∈ urls, validateURL u = none) →
      runDownloadsModel config cwd exDir urls = .ok urls) ∧
    (∀ u e, validateAllURLs urls = some (u, e) →
      u ∈ urls ∧ validateURL u = some e ∧
        runDownloadsModel config cwd exDir urls =
          .error ("invalid URL '" ++ u ++ "': " ++ e)) ∧
    ((∃ u ∈ urls, validateURL u ≠ none) →
      ∃ u e, runDownloadsModel config cwd exDir urls =
        .error ("invalid URL '" ++ u ++ "': " ++ e) ∧ u ∈ urls ∧
          validateURL u = some e) := by
  refine ⟨?_, ?_, ?_⟩
  · intro h
    simp [runDownloadsModel, hdest, validateAllURLs_none urls h]
  · intro u e h
    obtain ⟨hmem, hval⟩ := validateAllURLs_some h
    exact ⟨hmem, hval, by simp [runDownloadsModel, hdest, h]⟩
  · rintro ⟨u, hu, hbad⟩
    obtain ⟨v, e, hv⟩ := validateAllURLs_isSome hu hbad
    obtain ⟨hmem, hval⟩ := validateAllURLs_some hv
    exact ⟨v, e, by simp [runDownloadsModel, hdest, hv], hmem, hval⟩

theorem claim_C10_witness :
    "gopher://example.com/x" ∈ ["https://example.com/a.zip", "gopher://example.com/x"] ∧
    validateURL "gopher://example.com/x" =
      some "unsupported URL scheme: gopher (supported: http, https, ftp)" ∧
    runDownloadsModel ⟨"", "", 60, 30, 5, 10, "", 3, false⟩ "/home" (fun _ => false)
        ["https://example.com/a.zip", "gopher://example.com/x"] =
      .error ("invalid URL 'gopher://example.com/x': unsupported URL scheme: gopher (supported: http, https, ftp)") :=
  (claim_C10_validation_gates_launch ⟨"", "", 60, 30, 5, 10, "", 3, false⟩ "/home"
      (fun _ => false) ["https://example.com/a.zip", "gopher://example.com/x"]
      "/home" rfl).2.1 "gopher://example.com/x"
    "unsupported URL scheme: gopher (supported: http, https, ftp)" (by decide)

end GoferShell
